import Mathlib

/-
  Verification of the influx-proxy core (src/backend/proxy.go) against its
  natural-language specification.

  Shallow embedding notes:
  * A compiled regular expression is modelled by its matcher, a function
    String → Bool (only MatchString is ever called on it).
  * The consistent-hash ring (external library, stathat.com/c/consistent) is
    modelled by its contract: Get(key) is deterministic and fails exactly when
    the ring has no members.  Router.members is the member set, Router.pick the
    deterministic choice function used when the ring is non-empty.
  * A Go map[string]*Backend is modelled as an association list; a missing key
    yields none (the nil pointer).
  * Byte slices are modelled as String.
-/

namespace InfluxProxy

/-- One remote database endpoint.  Only the URL (its ring token) matters for the
routing and migration bookkeeping verified here; the buffers, locks and HTTP
client of the Go struct play no role in these claims. -/
structure Backend where
  url : String
deriving DecidableEq, Repr

/-- Model of the consistent-hash ring (library contract: `Get` is deterministic
and fails exactly on an empty ring). -/
structure Router where
  members : List String
  pick : String → String

/-- `Router.Get(key)`: error (none) iff the ring is empty, otherwise the
deterministic member chosen for the key. -/
def Router.get (r : Router) (key : String) : Option String :=
  if r.members.isEmpty then none else some (r.pick key)

/-- Association-list model of Go's `map[string]*Backend`; a missing key is the
nil pointer, i.e. none. -/
def lookupBackend (m : List (String × Backend)) (url : String) : Option Backend :=
  (m.find? (fun p => p.1 == url)).map Prod.snd

/-- One circle: a full replica of the dataset.  WaitGroups and the migrating
flag are runtime synchronisation objects; the counters they carry are modelled
explicitly where a claim needs them. -/
structure Circle where
  name : String
  circleNum : Nat
  urlToBackend : List (String × Backend)
  router : Router

/-- MigrationInfo, the per-(workflow, circle, backend) progress record. -/
structure MigrationInfo where
  circleNum : Nat
  database : String
  measurement : String
  backendMeasureTotal : Nat
  bmNeedMigrateCount : Nat
  bmNotMigrateCount : Nat
deriving DecidableEq, Repr

/-- The zero value of MigrationInfo (Go `&MigrationInfo\x7b\x7d`). -/
def MigrationInfo.zero : MigrationInfo :=
  { circleNum := 0, database := "", measurement := "", backendMeasureTotal := 0
    bmNeedMigrateCount := 0, bmNotMigrateCount := 0 }

/-- `ClearMigrateStatus` on one slot: zeroes every field except CircleNum. -/
def clearMigrateStatus (info : MigrationInfo) : MigrationInfo :=
  { info with database := "", measurement := "", backendMeasureTotal := 0
              bmNeedMigrateCount := 0, bmNotMigrateCount := 0 }

/-- The Proxy fields consumed by the verified operations.  Regex sets are lists
of matchers; dbMap is the key set of the Go `map[string]bool`. -/
structure Proxy where
  circles : List Circle
  dbList : List String
  dbMap : List String
  flushSize : Nat
  migrateMaxCpus : Int
  forbiddenQuery : List (String → Bool)
  obligatedQuery : List (String → Bool)
  clusteredQuery : List (String → Bool)

/-- The pure normalisation `NewProxy` applies to the decoded configuration:
`MigrateMaxCpus == 0` becomes 1, and `DbMap` is built from `DbList`
(proxy.go lines 69-80).  Loading the JSON file and spawning the per-backend
workers are I/O and are outside this fragment. -/
def newProxyNormalize (p : Proxy) : Proxy :=
  { p with migrateMaxCpus := if p.migrateMaxCpus == 0 then 1 else p.migrateMaxCpus
           dbMap := p.dbList }

/-- `Proxy.GetMachines`: for each circle in order, the ring lookup; on error the
circle is logged and skipped, otherwise `UrlToBackend[url]` (possibly nil) is
appended. -/
def getMachines (p : Proxy) (key : String) : List (Option Backend) :=
  p.circles.filterMap
    (fun c => (c.router.get key).map (fun url => lookupBackend c.urlToBackend url))

/-- `Proxy.CheckMeasurementQuery` (proxy.go lines 251-268): any forbidden match
refuses; otherwise a non-empty obligated set must have a match. -/
def checkMeasurementQuery (forbidden obligated : List (String → Bool))
    (q : String) : Bool :=
  if forbidden.any (fun fq => fq q) then false
  else if obligated.length != 0 then obligated.any (fun pq => pq q)
  else true

/-- `Proxy.CheckClusterQuery` (proxy.go lines 270-280). -/
def checkClusterQuery (clustered : List (String → Bool)) (q : String) : Bool :=
  if clustered.length != 0 then clustered.any (fun pq => pq q)
  else true

/-- `Proxy.CheckCreateDatabaseQuery` (proxy.go lines 282-287): the last
clustered matcher decides; an empty set refuses. -/
def checkCreateDatabaseQuery (clustered : List (String → Bool))
    (q : String) : Bool :=
  match clustered.getLast? with
  | some r => r q
  | none => false

/-- Effect of `Proxy.Migrate` (proxy.go lines 337-344) on the per-source
WaitGroup counter `BackendWgMap[backend.Url]`.  `circleMigrateErr` is the error
returned by `Circle.Migrate` (whose body is outside src/backend/proxy.go; only
success or failure of the call is relevant).  On error the function logs and
returns WITHOUT calling `Done()`; on success `Done()` decrements the counter. -/
def proxyMigrateWg (circleMigrateErr : Option String) (wgCounter : Nat) : Nat :=
  match circleMigrateErr with
  | some _ => wgCounter
  | none => wgCounter - 1

/-- A write request (`LineData`): database, line bytes, precision. -/
structure LineData where
  db : String
  line : String
  precision : String

/-- `bytes.HasSuffix(line, []byte("\n"))`: whether the last byte is a
newline. -/
def hasNewlineSuffix (line : String) : Bool :=
  line.data.getLast? == some (Char.ofNat 10)

/-- WriteData's newline normalisation (proxy.go lines 187-189): append a
newline unless the line already ends with one. -/
def appendNewlineIfMissing (line : String) : String :=
  if hasNewlineSuffix line then line else line ++ ("\n")

/-- The backend loop of `Proxy.WriteData` (proxy.go lines 192-198): call
`WriteDataToBuffer` on each routed backend in order; on the first error, log it
and RETURN — later backends are not called.  `enqOk b` abstracts the outcome of
`WriteDataToBuffer` on backend `b` (its body lives in the Backend file, outside
src/backend/proxy.go).  Result: the list of (backend, line) enqueue calls
actually issued, and whether an enqueue error was logged. -/
def writeLoop (enqOk : Option Backend → Bool) (line : String) :
    List (Option Backend) → List (Option Backend × String) × Bool
  | [] => ([], false)
  | b :: rest =>
    if enqOk b then
      let r := writeLoop enqOk line rest
      ((b, line) :: r.1, r.2)
    else ([(b, line)], true)

/-- `Proxy.WriteData` (proxy.go lines 164-200).  `lineToNano` and `scanKey`
abstract `LineToNano` and `ScanKey` (defined in the Backend/codec files of this
repository, outside src/backend/proxy.go): `scanKey` returns none on a
malformed line, in which case WriteData logs and drops.  An empty machine list
is logged and dropped.  Note that WriteData performs NO check of `data.Db`
against `Proxy.DbMap`. -/
def writeData (lineToNano : String → String → String)
    (scanKey : String → Option String) (enqOk : Option Backend → Bool)
    (p : Proxy) (data : LineData) : List (Option Backend × String) × Bool :=
  match scanKey (lineToNano data.line data.precision) with
  | none => ([], false)
  | some measure =>
    if (getMachines p (data.db ++ "," ++ measure)).length < 1 then ([], false)
    else
      writeLoop enqOk
        (appendNewlineIfMissing (lineToNano data.line data.precision))
        (getMachines p (data.db ++ "," ++ measure))

/-- Observable actions of one RebalanceBackend worker: scheduling a
per-measurement migration (`go proxy.Migrate(src, [dst], ...)`, dst = none
models a nil backend pointer), and waiting on the per-source barrier
`BackendWgMap[src].Wait()`. -/
inductive RebalanceEvent where
  | migrate (src : String) (dst : Option Backend) (db : String) (measure : String)
  | wait (src : String)
deriving DecidableEq, Repr

/-- Whether an event is a scheduled migration. -/
def RebalanceEvent.isMigrateEv : RebalanceEvent → Bool
  | .migrate _ _ _ _ => true
  | .wait _ => false

/-- Whether an event is a barrier wait. -/
def RebalanceEvent.isWaitEv : RebalanceEvent → Bool
  | .migrate _ _ _ _ => false
  | .wait _ => true

/-- The destination pointer of a migration event (none for a wait event). -/
def RebalanceEvent.dstOf : RebalanceEvent → Option (Option Backend)
  | .migrate _ d _ _ => some d
  | .wait _ => none

/-- State threaded through one RebalanceBackend worker: its own status slot,
the local migrateCount, and the events it has emitted so far. -/
structure RebalanceState where
  info : MigrationInfo
  migrateCount : Nat
  events : List RebalanceEvent
deriving DecidableEq, Repr

/-- The target URL RebalanceBackend computes for one measurement:
`Router.Get(db + "," + measure)`, which on a ring error leaves the Go
zero-value "" in `targetBackendUrl` (the error is only logged, proxy.go
388-391). -/
def rebalanceTarget (c : Circle) (db measure : String) : String :=
  (c.router.get (db ++ "," ++ measure)).getD ""

/-- The inner measurement loop of `Proxy.RebalanceBackend` (proxy.go 385-405):
set the slot's Measurement; compute the ring target (zero value on error); if
it differs from the source URL, bump BMNeedMigrateCount and migrateCount, look
the destination up in UrlToBackend, schedule the migration, and wait on the
per-source barrier when migrateCount % MigrateMaxCpus == 0; otherwise bump
BMNotMigrateCount. -/
def rebalanceMeasures (maxCpus : Nat) (c : Circle) (url db : String) :
    List String → RebalanceState → RebalanceState
  | [], st => st
  | measure :: rest, st =>
    let st1 : RebalanceState :=
      { st with info := { st.info with measurement := measure } }
    if rebalanceTarget c db measure != url then
      let st2 : RebalanceState :=
        { st1 with
            info := { st1.info with
                        bmNeedMigrateCount := st1.info.bmNeedMigrateCount + 1 },
            migrateCount := st1.migrateCount + 1,
            events := st1.events
              ++ [RebalanceEvent.migrate url
                    (lookupBackend c.urlToBackend (rebalanceTarget c db measure))
                    db measure] }
      let st3 : RebalanceState :=
        if st2.migrateCount % maxCpus == 0 then
          { st2 with events := st2.events ++ [RebalanceEvent.wait url] }
        else st2
      rebalanceMeasures maxCpus c url db rest st3
    else
      rebalanceMeasures maxCpus c url db rest
        { st1 with
            info := { st1.info with
                        bmNotMigrateCount := st1.info.bmNotMigrateCount + 1 } }

/-- The database loop of `Proxy.RebalanceBackend` (proxy.go 380-406): set the
slot's Database, fetch the measurements and OVERWRITE BackendMeasureTotal with
their count, then run the measurement loop. -/
def rebalanceDbs (maxCpus : Nat) (c : Circle) (url : String)
    (getMeasurements : String → List String) :
    List String → RebalanceState → RebalanceState
  | [], st => st
  | db :: rest, st =>
    let st1 : RebalanceState :=
      { st with
          info := { st.info with
                      database := db,
                      backendMeasureTotal := (getMeasurements db).length } }
    rebalanceDbs maxCpus c url getMeasurements rest
      (rebalanceMeasures maxCpus c url db (getMeasurements db) st1)

/-- One `Proxy.RebalanceBackend` worker (proxy.go 373-407), sequential model of
the slot it owns.  At entry the worker clears the circle's status table
(`ClearMigrateStatus`, which zeroes every field except CircleNum — and races
with sibling workers, a known source bug flagged by the spec) and then sets its
slot's CircleNum, so the worker's own slot starts from the zeroed record. -/
def rebalanceBackendRun (maxCpus : Nat) (c : Circle) (url : String)
    (getMeasurements : String → List String) (databases : List String)
    (circleNum : Nat) : RebalanceState :=
  rebalanceDbs maxCpus c url getMeasurements databases
    { info := { clearMigrateStatus MigrationInfo.zero with circleNum := circleNum },
      migrateCount := 0, events := [] }

/-- Spec-side description of the migrations one rebalance pass over `db` must
schedule from source `url`: exactly one per measurement whose ring target
differs from the source, with the destination looked up in UrlToBackend. -/
def rebalanceMigrations (c : Circle) (url db : String)
    (measures : List String) : List RebalanceEvent :=
  (measures.filter (fun m => rebalanceTarget c db m != url)).map
    (fun m => RebalanceEvent.migrate url
      (lookupBackend c.urlToBackend (rebalanceTarget c db m)) db m)

/-- Spec-side description of the barrier throttle: given that `j` migrations
were already scheduled in this pass, emit the remaining migration events in
order and insert a barrier wait right after the k-th scheduled migration
whenever k % maxCpus == 0. -/
def interleaveWaits (maxCpus : Nat) (url : String) :
    Nat → List RebalanceEvent → List RebalanceEvent
  | _, [] => []
  | j, e :: es =>
    if (j + 1) % maxCpus == 0 then
      e :: RebalanceEvent.wait url :: interleaveWaits maxCpus url (j + 1) es
    else
      e :: interleaveWaits maxCpus url (j + 1) es

end InfluxProxy

namespace InfluxProxy

/-- C7: `CheckMeasurementQuery(q)` is true iff no forbidden matcher matches q
and (the obligated set is empty or some obligated matcher matches q). -/
theorem checkMeasurementQuery_spec (forbidden obligated : List (String → Bool))
    (q : String) :
    checkMeasurementQuery forbidden obligated q = true ↔
      ((∀ r ∈ forbidden, r q = false) ∧
        (obligated = [] ∨ ∃ r ∈ obligated, r q = true)) := by
  unfold checkMeasurementQuery
  by_cases hf : forbidden.any (fun fq => fq q) = true
  · simp only [hf, if_true]
    constructor
    · intro h; exact absurd h (by simp)
    · rintro ⟨hall, _⟩
      rw [List.any_eq_true] at hf
      obtain ⟨r, hr, hrq⟩ := hf
      exact absurd (hall r hr) (by simp [hrq])
  · simp only [hf, if_false]
    have hall : ∀ r ∈ forbidden, r q = false := by
      intro r hr
      by_contra hne
      exact hf (List.any_eq_true.mpr ⟨r, hr, by simpa using hne⟩)
    by_cases ho : obligated.length != 0
    · have hne : obligated ≠ [] := by
        intro h; subst h; simp at ho
      simp only [ho, if_true]
      constructor
      · intro h
        refine ⟨hall, Or.inr ?_⟩
        simpa using List.any_eq_true.mp h
      · rintro ⟨-, h | h⟩
        · exact absurd h hne
        · exact List.any_eq_true.mpr (by simpa using h)
    · have heq : obligated = [] := by
        simpa using ho
      subst heq
      simp
      exact hall

/-- C8: when the clustered set is non-empty, `CheckCreateDatabaseQuery(q)` is
true iff the LAST clustered matcher matches q. -/
theorem checkCreateDatabaseQuery_spec (clustered : List (String → Bool))
    (q : String) (h : clustered ≠ []) :
    checkCreateDatabaseQuery clustered q = true ↔
      clustered.getLast h q = true := by
  unfold checkCreateDatabaseQuery
  rw [List.getLast?_eq_getLast clustered h]

/-- Witness for C8 at a concrete clustered set of two matchers: the result is
decided by the second (last) one. -/
theorem checkCreateDatabaseQuery_spec_witness :
    ([(fun s => s == ("SHOW DATABASES")), (fun s => s == ("CREATE DATABASE x"))]
        ≠ ([] : List (String → Bool))) ∧
      (checkCreateDatabaseQuery
          [(fun s => s == ("SHOW DATABASES")), (fun s => s == ("CREATE DATABASE x"))]
          ("CREATE DATABASE x") = true ↔
        List.getLast
          [(fun s => s == ("SHOW DATABASES")), (fun s => s == ("CREATE DATABASE x"))]
          (by simp) ("CREATE DATABASE x") = true) := by
  refine ⟨by simp, ?_⟩
  exact checkCreateDatabaseQuery_spec
    [(fun s => s == ("SHOW DATABASES")), (fun s => s == ("CREATE DATABASE x"))]
    ("CREATE DATABASE x") (by simp)

/-- C9: `NewProxy` turns a configured `migrate_max_cpus` of 0 into 1 and keeps
every non-zero configured value unchanged (proxy.go lines 69-71). -/
theorem newProxy_migrateMaxCpus (p : Proxy) :
    (p.migrateMaxCpus = 0 → (newProxyNormalize p).migrateMaxCpus = 1) ∧
      (p.migrateMaxCpus ≠ 0 →
        (newProxyNormalize p).migrateMaxCpus = p.migrateMaxCpus) := by
  constructor
  · intro h
    simp [newProxyNormalize, h]
  · intro h
    simp [newProxyNormalize, h]

/-- A proxy value with no circles and no query sets, used to instantiate
universally quantified theorems at concrete inputs. -/
def emptyProxyAt (cpus : Int) : Proxy :=
  { circles := [], dbList := [], dbMap := [], flushSize := 0,
    migrateMaxCpus := cpus, forbiddenQuery := [], obligatedQuery := [],
    clusteredQuery := [] }

/-- Concrete backend for instantiations: url "u1". -/
def backendU1 : Backend := { url := "u1" }

/-- Concrete backend for instantiations: url "u2". -/
def backendU2 : Backend := { url := "u2" }

/-- Concrete circle 0 holding only backendU1. -/
def circleOne : Circle :=
  { name := "one", circleNum := 0, urlToBackend := [("u1", backendU1)],
    router := { members := ["u1"], pick := fun _ => "u1" } }

/-- Concrete circle 1 holding only backendU2. -/
def circleTwo : Circle :=
  { name := "two", circleNum := 1, urlToBackend := [("u2", backendU2)],
    router := { members := ["u2"], pick := fun _ => "u2" } }

/-- Concrete two-circle proxy with db_list = ["m"] (after NewProxy, DbMap has
exactly the key "m"). -/
def proxyTwoCircles : Proxy :=
  { circles := [circleOne, circleTwo], dbList := ["m"], dbMap := ["m"],
    flushSize := 0, migrateMaxCpus := 1, forbiddenQuery := [],
    obligatedQuery := [], clusteredQuery := [] }

/-- Concrete circle with two backends; keys "d,m2" and "d,m3" route to u2,
everything else to u1. -/
def circleBoth : Circle :=
  { name := "both", circleNum := 0,
    urlToBackend := [("u1", backendU1), ("u2", backendU2)],
    router := { members := ["u1", "u2"],
                pick := fun k => if k == "d,m2" || k == "d,m3" then "u2" else "u1" } }

/-- Concrete circle whose ring has no members (every lookup errors). -/
def circleEmptyRing : Circle :=
  { name := "emptyring", circleNum := 0, urlToBackend := [],
    router := { members := [], pick := fun _ => "" } }

/-- Witness for C9 at concrete configurations: 0 becomes 1 and 5 is kept. -/
theorem newProxy_migrateMaxCpus_witness :
    ((newProxyNormalize (emptyProxyAt 0)).migrateMaxCpus = 1) ∧
      ((newProxyNormalize (emptyProxyAt 5)).migrateMaxCpus = 5) := by
  constructor
  · exact (newProxy_migrateMaxCpus (emptyProxyAt 0)).1 rfl
  · exact (newProxy_migrateMaxCpus (emptyProxyAt 5)).2 (by decide)

lemma getMachinesList_eq (cs : List Circle) (key : String) :
    cs.filterMap
        (fun c => (c.router.get key).map (fun url => lookupBackend c.urlToBackend url))
      = (cs.filter (fun c => !c.router.members.isEmpty)).map
          (fun c => lookupBackend c.urlToBackend (c.router.pick key)) := by
  induction cs with
  | nil => rfl
  | cons c cs ih =>
    simp [Router.get] at ih
    by_cases h : c.router.members = []
    · have hb : c.router.members.isEmpty = true := by simp [h]
      simp [List.filterMap_cons, List.filter_cons, Router.get, h, hb, ih]
    · have hb : c.router.members.isEmpty = false := by simpa using h
      simp [List.filterMap_cons, List.filter_cons, Router.get, h, hb, ih]

/-- C6: `GetMachines` returns, in circle order, exactly one backend pointer per
circle whose ring lookup succeeds (the one the ring picks, looked up in
UrlToBackend); a circle with an empty ring is skipped and contributes nothing,
so the result length equals the number of circles with non-empty rings. -/
theorem getMachines_spec (p : Proxy) (key : String) :
    getMachines p key
      = (p.circles.filter (fun c => !c.router.members.isEmpty)).map
          (fun c => lookupBackend c.urlToBackend (c.router.pick key)) ∧
    (getMachines p key).length
      = (p.circles.filter (fun c => !c.router.members.isEmpty)).length := by
  have h := getMachinesList_eq p.circles key
  refine ⟨h, ?_⟩
  calc (getMachines p key).length
      = ((p.circles.filter (fun c => !c.router.members.isEmpty)).map
          (fun c => lookupBackend c.urlToBackend (c.router.pick key))).length := by
        rw [show getMachines p key = _ from h]
    _ = (p.circles.filter (fun c => !c.router.members.isEmpty)).length :=
        List.length_map _ _

/-- C2: evaluation of `Proxy.Migrate`'s WaitGroup bookkeeping at the failing
input.  When `Circle.Migrate` returns an error, the per-source counter is NOT
decremented (Done is skipped by the early return), while on success it is: the
barrier `BackendWgMap[src].Wait()` therefore hangs after a failed migration. -/
theorem migrate_error_path_keeps_wgCounter :
    proxyMigrateWg (some ("migrate failed")) 1 = 1 ∧ proxyMigrateWg none 1 = 0 :=
  ⟨rfl, rfl⟩

/-- C1 counterexample: with two circles and an enqueue that fails on the first
routed backend, `WriteData` logs and returns immediately — the second circle's
backend receives no call at all, contradicting "remaining circles still
receive the write". -/
theorem writeData_remainingCircles_counterexample :
    (writeData (fun l _ => l) (fun _ => some ("cpu")) (fun _ => false)
        proxyTwoCircles { db := "m", line := "cpu value=1", precision := "s" }
      = ([(some backendU1, "cpu value=1\n")], true)) ∧
      ∀ pr ∈ (writeData (fun l _ => l) (fun _ => some ("cpu")) (fun _ => false)
          proxyTwoCircles
          { db := "m", line := "cpu value=1", precision := "s" }).1,
        pr.1 ≠ some backendU2 := by
  constructor
  · rfl
  · decide

lemma writeLoop_eq (enqOk : Option Backend → Bool) (line : String)
    (bs : List (Option Backend)) :
    writeLoop enqOk line bs
      = ((bs.takeWhile enqOk).map (fun b => (b, line))
          ++ ((bs.dropWhile enqOk).take 1).map (fun b => (b, line)),
         bs.any (fun b => !enqOk b)) := by
  induction bs with
  | nil => rfl
  | cons b rest ih =>
    by_cases h : enqOk b
    · simp [writeLoop, h, List.takeWhile_cons, List.dropWhile_cons, ih]
    · simp [writeLoop, h, List.takeWhile_cons, List.dropWhile_cons]

/-- C1 as amended: when `WriteDataToBuffer` fails for the backend of one
circle, WriteData logs the failure and returns immediately.  The backends of
circles BEFORE the failing one received their enqueue, the failing backend got
the failing call, and the backends of all remaining circles receive nothing;
the error flag is set iff some routed backend's enqueue fails. -/
theorem writeData_failClosed (lineToNano : String → String → String)
    (scanKey : String → Option String) (enqOk : Option Backend → Bool)
    (p : Proxy) (data : LineData) (measure : String)
    (hscan : scanKey (lineToNano data.line data.precision) = some measure)
    (hlen : 1 ≤ (getMachines p (data.db ++ "," ++ measure)).length) :
    writeData lineToNano scanKey enqOk p data
      = (((getMachines p (data.db ++ "," ++ measure)).takeWhile enqOk).map
            (fun b =>
              (b, appendNewlineIfMissing (lineToNano data.line data.precision)))
          ++ (((getMachines p (data.db ++ "," ++ measure)).dropWhile enqOk).take 1).map
            (fun b =>
              (b, appendNewlineIfMissing (lineToNano data.line data.precision))),
         (getMachines p (data.db ++ "," ++ measure)).any (fun b => !enqOk b)) := by
  unfold writeData
  rw [hscan]
  show (if (getMachines p (data.db ++ "," ++ measure)).length < 1 then
        (([], false) : List (Option Backend × String) × Bool)
      else
        writeLoop enqOk
          (appendNewlineIfMissing (lineToNano data.line data.precision))
          (getMachines p (data.db ++ "," ++ measure))) = _
  rw [if_neg (by omega)]
  exact writeLoop_eq enqOk _ _

/-- Witness for the amended C1 at the concrete two-circle proxy where the first
enqueue fails. -/
theorem writeData_failClosed_witness :
    ((fun _ : String => some ("cpu"))
        ((fun l _ => l) ("cpu value=1" : String) ("s" : String)) = some ("cpu") ∧
      1 ≤ (getMachines proxyTwoCircles (("m" : String) ++ "," ++ "cpu")).length) ∧
      writeData (fun l _ => l) (fun _ => some ("cpu")) (fun _ => false)
          proxyTwoCircles { db := "m", line := "cpu value=1", precision := "s" }
        = (((getMachines proxyTwoCircles (("m" : String) ++ "," ++ "cpu")).takeWhile
              (fun _ => false)).map
              (fun b =>
                (b, appendNewlineIfMissing
                  ((fun l _ => l) ("cpu value=1" : String) ("s" : String))))
            ++ (((getMachines proxyTwoCircles
                  (("m" : String) ++ "," ++ "cpu")).dropWhile (fun _ => false)).take 1).map
              (fun b =>
                (b, appendNewlineIfMissing
                  ((fun l _ => l) ("cpu value=1" : String) ("s" : String)))),
           (getMachines proxyTwoCircles (("m" : String) ++ "," ++ "cpu")).any
             (fun _ => !false)) := by
  refine ⟨⟨rfl, by decide⟩, ?_⟩
  exact writeData_failClosed (fun l _ => l) (fun _ => some ("cpu")) (fun _ => false)
    proxyTwoCircles { db := "m", line := "cpu value=1", precision := "s" }
    ("cpu") rfl (by decide)

/-- C3 counterexample: db "x" is not in DbMap, yet WriteData routes and
enqueues the line into a backend of every circle — no rejection happens. -/
theorem writeData_noDbCheck_counterexample :
    (("x" : String) ∉ proxyTwoCircles.dbMap) ∧
      writeData (fun l _ => l) (fun _ => some ("cpu")) (fun _ => true)
          proxyTwoCircles { db := "x", line := "cpu value=1", precision := "s" }
        = ([(some backendU1, "cpu value=1\n"), (some backendU2, "cpu value=1\n")],
           false) := by
  constructor
  · decide
  · rfl

/-- C3 as amended: `WriteData` contains no database-allowlist check at all —
its result is independent of `DbMap` and `DbList`, so a write whose db is not
configured is processed exactly like an allowed one. -/
theorem writeData_independent_of_dbMap (lineToNano : String → String → String)
    (scanKey : String → Option String) (enqOk : Option Backend → Bool)
    (p : Proxy) (data : LineData) (m l : List String) :
    writeData lineToNano scanKey enqOk { p with dbMap := m, dbList := l } data
      = writeData lineToNano scanKey enqOk p data := rfl

lemma rebalanceMeasures_need (maxCpus : Nat) (c : Circle) (url db : String)
    (ms : List String) (st : RebalanceState) :
    (rebalanceMeasures maxCpus c url db ms st).info.bmNeedMigrateCount
      = st.info.bmNeedMigrateCount
        + (ms.filter (fun m => rebalanceTarget c db m != url)).length := by
  induction ms generalizing st with
  | nil => simp [rebalanceMeasures]
  | cons m rest ih =>
    by_cases h : rebalanceTarget c db m != url
    · by_cases hw : (st.migrateCount + 1) % maxCpus == 0
      · simp [rebalanceMeasures, h, hw, ih, List.filter_cons]
        omega
      · simp [rebalanceMeasures, h, hw, ih, List.filter_cons]
        omega
    · simp [rebalanceMeasures, h, ih, List.filter_cons]

lemma rebalanceMeasures_not (maxCpus : Nat) (c : Circle) (url db : String)
    (ms : List String) (st : RebalanceState) :
    (rebalanceMeasures maxCpus c url db ms st).info.bmNotMigrateCount
      = st.info.bmNotMigrateCount
        + (ms.filter (fun m => !(rebalanceTarget c db m != url))).length := by
  induction ms generalizing st with
  | nil => simp [rebalanceMeasures]
  | cons m rest ih =>
    by_cases h : rebalanceTarget c db m != url
    · by_cases hw : (st.migrateCount + 1) % maxCpus == 0
      · simp [rebalanceMeasures, h, hw, ih, List.filter_cons]
      · simp [rebalanceMeasures, h, hw, ih, List.filter_cons]
    · simp [rebalanceMeasures, h, ih, List.filter_cons]
      omega

lemma rebalanceMeasures_count (maxCpus : Nat) (c : Circle) (url db : String)
    (ms : List String) (st : RebalanceState) :
    (rebalanceMeasures maxCpus c url db ms st).migrateCount
      = st.migrateCount
        + (ms.filter (fun m => rebalanceTarget c db m != url)).length := by
  induction ms generalizing st with
  | nil => simp [rebalanceMeasures]
  | cons m rest ih =>
    by_cases h : rebalanceTarget c db m != url
    · by_cases hw : (st.migrateCount + 1) % maxCpus == 0
      · simp [rebalanceMeasures, h, hw, ih, List.filter_cons]
        omega
      · simp [rebalanceMeasures, h, hw, ih, List.filter_cons]
        omega
    · simp [rebalanceMeasures, h, ih, List.filter_cons]

lemma rebalanceMeasures_total (maxCpus : Nat) (c : Circle) (url db : String)
    (ms : List String) (st : RebalanceState) :
    (rebalanceMeasures maxCpus c url db ms st).info.backendMeasureTotal
      = st.info.backendMeasureTotal := by
  induction ms generalizing st with
  | nil => simp [rebalanceMeasures]
  | cons m rest ih =>
    by_cases h : rebalanceTarget c db m != url
    · by_cases hw : (st.migrateCount + 1) % maxCpus == 0
      · simp [rebalanceMeasures, h, hw, ih]
      · simp [rebalanceMeasures, h, hw, ih]
    · simp [rebalanceMeasures, h, ih]

lemma rebalanceMeasures_events (maxCpus : Nat) (c : Circle) (url db : String)
    (ms : List String) (st : RebalanceState) :
    (rebalanceMeasures maxCpus c url db ms st).events
      = st.events
        ++ interleaveWaits maxCpus url st.migrateCount
            (rebalanceMigrations c url db ms) := by
  induction ms generalizing st with
  | nil => simp [rebalanceMeasures, rebalanceMigrations, interleaveWaits]
  | cons m rest ih =>
    by_cases h : rebalanceTarget c db m != url
    · by_cases hw : (st.migrateCount + 1) % maxCpus == 0
      · simp [rebalanceMeasures, h, hw, ih, rebalanceMigrations, List.filter_cons,
          interleaveWaits]
      · simp [rebalanceMeasures, h, hw, ih, rebalanceMigrations, List.filter_cons,
          interleaveWaits]
    · simp [rebalanceMeasures, h, ih, rebalanceMigrations, List.filter_cons]

lemma rebalanceDbs_nil (maxCpus : Nat) (c : Circle) (url : String)
    (g : String → List String) (st : RebalanceState) :
    rebalanceDbs maxCpus c url g [] st = st := rfl

lemma rebalanceDbs_cons (maxCpus : Nat) (c : Circle) (url : String)
    (g : String → List String) (db : String) (rest : List String)
    (st : RebalanceState) :
    rebalanceDbs maxCpus c url g (db :: rest) st
      = rebalanceDbs maxCpus c url g rest
          (rebalanceMeasures maxCpus c url db (g db)
            { st with
                info := { st.info with
                            database := db,
                            backendMeasureTotal := (g db).length } }) := rfl

lemma rebalanceDbs_need (maxCpus : Nat) (c : Circle) (url : String)
    (g : String → List String) (dbs : List String) (st : RebalanceState) :
    (rebalanceDbs maxCpus c url g dbs st).info.bmNeedMigrateCount
      = st.info.bmNeedMigrateCount
        + (dbs.map (fun db =>
            ((g db).filter (fun m => rebalanceTarget c db m != url)).length)).sum := by
  induction dbs generalizing st with
  | nil => simp [rebalanceDbs]
  | cons db rest ih =>
    simp [rebalanceDbs, ih, rebalanceMeasures_need]
    omega

lemma rebalanceDbs_not (maxCpus : Nat) (c : Circle) (url : String)
    (g : String → List String) (dbs : List String) (st : RebalanceState) :
    (rebalanceDbs maxCpus c url g dbs st).info.bmNotMigrateCount
      = st.info.bmNotMigrateCount
        + (dbs.map (fun db =>
            ((g db).filter (fun m => !(rebalanceTarget c db m != url))).length)).sum := by
  induction dbs generalizing st with
  | nil => simp [rebalanceDbs]
  | cons db rest ih =>
    simp [rebalanceDbs, ih, rebalanceMeasures_not]
    omega

lemma rebalanceDbs_count (maxCpus : Nat) (c : Circle) (url : String)
    (g : String → List String) (dbs : List String) (st : RebalanceState) :
    (rebalanceDbs maxCpus c url g dbs st).migrateCount
      = st.migrateCount
        + (dbs.map (fun db =>
            ((g db).filter (fun m => rebalanceTarget c db m != url)).length)).sum := by
  induction dbs generalizing st with
  | nil => simp [rebalanceDbs]
  | cons db rest ih =>
    simp [rebalanceDbs, ih, rebalanceMeasures_count]
    omega

lemma rebalanceDbs_total (maxCpus : Nat) (c : Circle) (url : String)
    (g : String → List String) (dbs : List String) (st : RebalanceState) :
    (rebalanceDbs maxCpus c url g dbs st).info.backendMeasureTotal
      = ((dbs.getLast?).map (fun db => (g db).length)).getD
          st.info.backendMeasureTotal := by
  induction dbs generalizing st with
  | nil => simp [rebalanceDbs_nil]
  | cons db rest ih =>
    cases rest with
    | nil =>
      rw [rebalanceDbs_cons, rebalanceDbs_nil, rebalanceMeasures_total]
      simp
    | cons db2 rest2 =>
      rw [rebalanceDbs_cons, ih, List.getLast?_cons_cons]
      obtain ⟨x, hx⟩ := Option.isSome_iff_exists.mp
        (List.getLast?_isSome.mpr (by simp) : (db2 :: rest2).getLast?.isSome)
      rw [hx]
      simp

lemma rebalanceMigrations_length (c : Circle) (url db : String)
    (ms : List String) :
    (rebalanceMigrations c url db ms).length
      = (ms.filter (fun m => rebalanceTarget c db m != url)).length := by
  simp [rebalanceMigrations]

lemma interleaveWaits_append (maxCpus : Nat) (url : String)
    (l1 l2 : List RebalanceEvent) (j : Nat) :
    interleaveWaits maxCpus url j (l1 ++ l2)
      = interleaveWaits maxCpus url j l1
        ++ interleaveWaits maxCpus url (j + l1.length) l2 := by
  induction l1 generalizing j with
  | nil => simp [interleaveWaits]
  | cons e es ih =>
    have harg : j + (e :: es).length = j + 1 + es.length := by
      simp only [List.length_cons]
      omega
    rw [harg, List.cons_append]
    by_cases hw : (j + 1) % maxCpus == 0
    · rw [interleaveWaits, if_pos hw, ih]
      rw [show interleaveWaits maxCpus url j (e :: es)
          = e :: RebalanceEvent.wait url :: interleaveWaits maxCpus url (j + 1) es from by
        rw [interleaveWaits, if_pos hw]]
      simp
    · rw [interleaveWaits, if_neg hw, ih]
      rw [show interleaveWaits maxCpus url j (e :: es)
          = e :: interleaveWaits maxCpus url (j + 1) es from by
        rw [interleaveWaits, if_neg hw]]
      simp

lemma rebalanceDbs_events (maxCpus : Nat) (c : Circle) (url : String)
    (g : String → List String) (dbs : List String) (st : RebalanceState) :
    (rebalanceDbs maxCpus c url g dbs st).events
      = st.events
        ++ interleaveWaits maxCpus url st.migrateCount
            (dbs.flatMap (fun db => rebalanceMigrations c url db (g db))) := by
  induction dbs generalizing st with
  | nil => simp [rebalanceDbs, interleaveWaits]
  | cons db rest ih =>
    simp only [rebalanceDbs]
    rw [ih, rebalanceMeasures_events, rebalanceMeasures_count]
    rw [List.flatMap_cons, interleaveWaits_append, rebalanceMigrations_length]
    simp [List.append_assoc]

lemma filter_length_add {α : Type} (p : α → Bool) (l : List α) :
    (l.filter p).length + (l.filter (fun a => !p a)).length = l.length := by
  induction l with
  | nil => rfl
  | cons a l ih =>
    by_cases h : p a
    · simp [List.filter_cons, h]
      omega
    · have hf : p a = false := by simpa using h
      simp [List.filter_cons, hf]
      omega

lemma sum_filter_length_split (c : Circle) (url : String)
    (g : String → List String) (dbs : List String) :
    (dbs.map (fun db =>
        ((g db).filter (fun m => rebalanceTarget c db m != url)).length)).sum
      + (dbs.map (fun db =>
          ((g db).filter (fun m => !(rebalanceTarget c db m != url))).length)).sum
      = (dbs.map (fun db => (g db).length)).sum := by
  induction dbs with
  | nil => rfl
  | cons db rest ih =>
    simp only [List.map_cons, List.sum_cons]
    have h := filter_length_add (fun m => rebalanceTarget c db m != url) (g db)
    omega

/-- C4 counterexample: a rebalance pass over two databases (one measurement
each, everything routed to the source itself) ends with
BMNeedMigrateCount + BMNotMigrateCount = 2 but BackendMeasureTotal = 1: the
total is overwritten per database while the counters accumulate. -/
theorem rebalance_total_counterexample :
    (rebalanceBackendRun 1 circleOne ("u1")
          (fun db => if db == "d1" then ["m1"] else ["m2"]) ["d1", "d2"]
          0).info.bmNeedMigrateCount
        + (rebalanceBackendRun 1 circleOne ("u1")
            (fun db => if db == "d1" then ["m1"] else ["m2"]) ["d1", "d2"]
            0).info.bmNotMigrateCount
      ≠ (rebalanceBackendRun 1 circleOne ("u1")
          (fun db => if db == "d1" then ["m1"] else ["m2"]) ["d1", "d2"]
          0).info.backendMeasureTotal := by
  decide

/-- C4 as amended: after a RebalanceBackend worker's pass,
BMNeedMigrateCount + BMNotMigrateCount equals the TOTAL number of measurements
across all scanned databases (every measurement is examined exactly once, even
when its ring lookup fails), while BackendMeasureTotal holds only the LAST
scanned database's measurement count; the claimed equation
need + not = BackendMeasureTotal therefore holds only for single-database
passes. -/
theorem rebalance_status_counts (maxCpus : Nat) (c : Circle) (url : String)
    (g : String → List String) (dbs : List String) (cn : Nat)
    (hcpu : 0 < maxCpus) :
    (rebalanceBackendRun maxCpus c url g dbs cn).info.bmNeedMigrateCount
        + (rebalanceBackendRun maxCpus c url g dbs cn).info.bmNotMigrateCount
      = (dbs.map (fun db => (g db).length)).sum ∧
    (rebalanceBackendRun maxCpus c url g dbs cn).info.backendMeasureTotal
      = ((dbs.getLast?).map (fun db => (g db).length)).getD 0 := by
  constructor
  · rw [rebalanceBackendRun, rebalanceDbs_need, rebalanceDbs_not]
    have h := sum_filter_length_split c url g dbs
    simp only [clearMigrateStatus, MigrationInfo.zero]
    omega
  · rw [rebalanceBackendRun, rebalanceDbs_total]
    rfl

/-- Witness for the amended C4 at a concrete two-database pass. -/
theorem rebalance_status_counts_witness :
    0 < 1 ∧
      ((rebalanceBackendRun 1 circleOne ("u1")
            (fun db => if db == "d1" then ["m1", "m2"] else ["m3"]) ["d1", "d2"]
            0).info.bmNeedMigrateCount
          + (rebalanceBackendRun 1 circleOne ("u1")
              (fun db => if db == "d1" then ["m1", "m2"] else ["m3"]) ["d1", "d2"]
              0).info.bmNotMigrateCount
        = ((["d1", "d2"] : List String).map
            (fun db => ((if db == "d1" then ["m1", "m2"] else ["m3"]) : List String).length)).sum ∧
      (rebalanceBackendRun 1 circleOne ("u1")
            (fun db => if db == "d1" then ["m1", "m2"] else ["m3"]) ["d1", "d2"]
            0).info.backendMeasureTotal
        = (((["d1", "d2"] : List String).getLast?).map
            (fun db => ((if db == "d1" then ["m1", "m2"] else ["m3"]) : List String).length)).getD 0) :=
  ⟨by decide,
    rebalance_status_counts 1 circleOne ("u1")
      (fun db => if db == "d1" then ["m1", "m2"] else ["m3"]) ["d1", "d2"] 0
      (by decide)⟩

lemma rebalanceTarget_of_nonempty (c : Circle) (db m : String)
    (hne : c.router.members ≠ []) :
    rebalanceTarget c db m = c.router.pick (db ++ "," ++ m) := by
  have hb : c.router.members.isEmpty = false := by simpa using hne
  simp [rebalanceTarget, Router.get, hb]

lemma rebalanceMigrations_no_wait (c : Circle) (url db : String)
    (ms : List String) :
    ∀ e ∈ rebalanceMigrations c url db ms, e.isWaitEv = false := by
  intro e he
  simp only [rebalanceMigrations, List.mem_map] at he
  obtain ⟨m, -, rfl⟩ := he
  rfl

lemma flatMap_migrations_no_wait (c : Circle) (url : String)
    (g : String → List String) (dbs : List String) :
    ∀ e ∈ dbs.flatMap (fun db => rebalanceMigrations c url db (g db)),
      e.isWaitEv = false := by
  intro e he
  rw [List.mem_flatMap] at he
  obtain ⟨db, -, hdb⟩ := he
  exact rebalanceMigrations_no_wait c url db (g db) e hdb

lemma isWaitEv_wait (url : String) :
    RebalanceEvent.isWaitEv (RebalanceEvent.wait url) = true := rfl

lemma interleaveWaits_waitCount (maxCpus : Nat) (url : String)
    (l : List RebalanceEvent) (j : Nat) (hcpu : 0 < maxCpus)
    (hl : ∀ e ∈ l, e.isWaitEv = false) :
    ((interleaveWaits maxCpus url j l).filter RebalanceEvent.isWaitEv).length
      = (j + l.length) / maxCpus - j / maxCpus := by
  revert hl
  induction l generalizing j with
  | nil =>
    intro hl
    simp [interleaveWaits]
  | cons e es ih =>
    intro hl
    have he : e.isWaitEv = false := hl e (by simp)
    have hes : ∀ x ∈ es, x.isWaitEv = false := fun x hx => hl x (by simp [hx])
    have hd : (j + 1) / maxCpus ≤ (j + 1 + es.length) / maxCpus :=
      Nat.div_le_div_right (by omega)
    have harg : j + (e :: es).length = j + 1 + es.length := by
      simp only [List.length_cons]
      omega
    rw [harg]
    by_cases hw : (j + 1) % maxCpus == 0
    · have hdvd : maxCpus ∣ (j + 1) := Nat.dvd_of_mod_eq_zero (by simpa using hw)
      have hsucc : (j + 1) / maxCpus = j / maxCpus + 1 := by
        rw [Nat.succ_div]
        simp [hdvd]
      rw [interleaveWaits, if_pos hw]
      rw [List.filter_cons, List.filter_cons]
      rw [he, isWaitEv_wait]
      simp only [Bool.false_eq_true, if_false, if_true, List.length_cons]
      rw [ih (j + 1) hes]
      omega
    · have hmod : (j + 1) % maxCpus ≠ 0 := by simpa using hw
      have hnd : ¬ maxCpus ∣ (j + 1) :=
        fun hdd => hmod (Nat.mod_eq_zero_of_dvd hdd)
      have hsucc : (j + 1) / maxCpus = j / maxCpus := by
        rw [Nat.succ_div]
        simp [hnd]
      rw [interleaveWaits, if_neg hw]
      rw [List.filter_cons]
      rw [he]
      simp only [Bool.false_eq_true, if_false]
      rw [ih (j + 1) hes]
      omega

/-- C5: during a rebalance pass with a non-empty ring (and the always-true
MigrateMaxCpus ≥ 1), the worker's event trace is exactly the per-measurement
migrations of the routed-away measurements — one `Migrate(B, [target], db, m)`
per measurement whose ring target differs from the source URL, none for the
rest, in scan order — interleaved with a barrier wait after the k-th scheduled
migration exactly when k % MigrateMaxCpus == 0; BMNeedMigrateCount ends equal
to the number of measurements routed away, BMNotMigrateCount to the rest, and
the number of barrier waits is need / MigrateMaxCpus. -/
theorem rebalanceBackend_spec (maxCpus : Nat) (c : Circle) (url : String)
    (g : String → List String) (dbs : List String) (cn : Nat)
    (hcpu : 0 < maxCpus) (hne : c.router.members ≠ []) :
    (rebalanceBackendRun maxCpus c url g dbs cn).events
      = interleaveWaits maxCpus url 0
          (dbs.flatMap (fun db => rebalanceMigrations c url db (g db))) ∧
    (rebalanceBackendRun maxCpus c url g dbs cn).info.bmNeedMigrateCount
      = (dbs.map (fun db =>
          ((g db).filter
            (fun m => c.router.pick (db ++ "," ++ m) != url)).length)).sum ∧
    (rebalanceBackendRun maxCpus c url g dbs cn).info.bmNotMigrateCount
      = (dbs.map (fun db =>
          ((g db).filter
            (fun m => !(c.router.pick (db ++ "," ++ m) != url))).length)).sum ∧
    ((rebalanceBackendRun maxCpus c url g dbs cn).events.filter
        RebalanceEvent.isWaitEv).length
      = (rebalanceBackendRun maxCpus c url g dbs cn).info.bmNeedMigrateCount
          / maxCpus := by
  have htgt : ∀ db m, rebalanceTarget c db m = c.router.pick (db ++ "," ++ m) :=
    fun db m => rebalanceTarget_of_nonempty c db m hne
  have hev : (rebalanceBackendRun maxCpus c url g dbs cn).events
      = interleaveWaits maxCpus url 0
          (dbs.flatMap (fun db => rebalanceMigrations c url db (g db))) := by
    rw [rebalanceBackendRun, rebalanceDbs_events]
    simp
  have hneed : (rebalanceBackendRun maxCpus c url g dbs cn).info.bmNeedMigrateCount
      = (dbs.map (fun db =>
          ((g db).filter
            (fun m => c.router.pick (db ++ "," ++ m) != url)).length)).sum := by
    rw [rebalanceBackendRun, rebalanceDbs_need]
    simp only [clearMigrateStatus, MigrationInfo.zero, htgt]
    simp
  have hnot : (rebalanceBackendRun maxCpus c url g dbs cn).info.bmNotMigrateCount
      = (dbs.map (fun db =>
          ((g db).filter
            (fun m => !(c.router.pick (db ++ "," ++ m) != url))).length)).sum := by
    rw [rebalanceBackendRun, rebalanceDbs_not]
    simp only [clearMigrateStatus, MigrationInfo.zero, htgt]
    simp
  refine ⟨hev, hneed, hnot, ?_⟩
  rw [hev, hneed]
  rw [interleaveWaits_waitCount maxCpus url _ 0 hcpu
    (flatMap_migrations_no_wait c url g dbs)]
  have hlen : (dbs.flatMap (fun db => rebalanceMigrations c url db (g db))).length
      = (dbs.map (fun db =>
          ((g db).filter
            (fun m => c.router.pick (db ++ "," ++ m) != url)).length)).sum := by
    rw [List.length_flatMap]
    congr 1
    apply List.map_congr_left
    intro db _
    simp only [Function.comp_apply]
    rw [rebalanceMigrations_length]
    congr 1
    apply List.filter_congr
    intro m _
    rw [htgt]
  rw [hlen]
  simp

/-- Witness for C5 at a concrete circle of two members with MigrateMaxCpus = 2:
of three measurements, m2 and m3 are routed away from u1 and a barrier wait
follows the second scheduled migration. -/
theorem rebalanceBackend_spec_witness :
    (0 < 2 ∧ circleBoth.router.members ≠ []) ∧
      ((rebalanceBackendRun 2 circleBoth ("u1")
            (fun _ => ["m1", "m2", "m3"]) ["d"] 0).events
        = interleaveWaits 2 ("u1") 0
            ((["d"] : List String).flatMap
              (fun db => rebalanceMigrations circleBoth ("u1") db
                ["m1", "m2", "m3"])) ∧
      (rebalanceBackendRun 2 circleBoth ("u1")
            (fun _ => ["m1", "m2", "m3"]) ["d"] 0).info.bmNeedMigrateCount
        = ((["d"] : List String).map (fun db =>
            ((["m1", "m2", "m3"] : List String).filter
              (fun m => circleBoth.router.pick (db ++ "," ++ m) != "u1")).length)).sum ∧
      (rebalanceBackendRun 2 circleBoth ("u1")
            (fun _ => ["m1", "m2", "m3"]) ["d"] 0).info.bmNotMigrateCount
        = ((["d"] : List String).map (fun db =>
            ((["m1", "m2", "m3"] : List String).filter
              (fun m => !(circleBoth.router.pick (db ++ "," ++ m) != "u1"))).length)).sum ∧
      ((rebalanceBackendRun 2 circleBoth ("u1")
            (fun _ => ["m1", "m2", "m3"]) ["d"] 0).events.filter
          RebalanceEvent.isWaitEv).length
        = (rebalanceBackendRun 2 circleBoth ("u1")
              (fun _ => ["m1", "m2", "m3"]) ["d"] 0).info.bmNeedMigrateCount / 2) :=
  ⟨⟨by decide, by decide⟩,
    rebalanceBackend_spec 2 circleBoth ("u1") (fun _ => ["m1", "m2", "m3"])
      ["d"] 0 (by decide) (by decide)⟩

lemma rebalanceTarget_of_empty (c : Circle) (db m : String)
    (h : c.router.members = []) : rebalanceTarget c db m = "" := by
  simp [rebalanceTarget, Router.get, h]

lemma interleaveWaits_mem (maxCpus : Nat) (url : String) :
    ∀ (j : Nat) (l : List RebalanceEvent) (e : RebalanceEvent),
      e ∈ interleaveWaits maxCpus url j l →
        e ∈ l ∨ e = RebalanceEvent.wait url := by
  intro j l
  induction l generalizing j with
  | nil =>
    intro e he
    simp [interleaveWaits] at he
  | cons x xs ih =>
    intro e he
    by_cases hw : (j + 1) % maxCpus == 0
    · rw [interleaveWaits, if_pos hw] at he
      simp only [List.mem_cons] at he
      rcases he with rfl | rfl | he
      · exact Or.inl (by simp)
      · exact Or.inr rfl
      · rcases ih (j + 1) e he with h1 | h1
        · exact Or.inl (List.mem_cons_of_mem _ h1)
        · exact Or.inr h1
    · rw [interleaveWaits, if_neg hw] at he
      simp only [List.mem_cons] at he
      rcases he with rfl | he
      · exact Or.inl (by simp)
      · rcases ih (j + 1) e he with h1 | h1
        · exact Or.inl (List.mem_cons_of_mem _ h1)
        · exact Or.inr h1

/-- C10: in RebalanceBackend, a failing ring lookup does NOT skip the
measurement: the Go zero-value target "" differs from the (non-empty) source
URL, so with an empty ring EVERY measurement is counted as needing migration
(BMNotMigrateCount stays 0) and every scheduled migration's destination,
looked up as UrlToBackend[""], is the nil pointer (none). -/
theorem rebalanceBackend_emptyRing (maxCpus : Nat) (c : Circle) (url : String)
    (g : String → List String) (dbs : List String) (cn : Nat)
    (hcpu : 0 < maxCpus) (hring : c.router.members = []) (hurl : url ≠ "")
    (hmap : lookupBackend c.urlToBackend ("") = none) :
    (rebalanceBackendRun maxCpus c url g dbs cn).info.bmNeedMigrateCount
      = (dbs.map (fun db => (g db).length)).sum ∧
    (rebalanceBackendRun maxCpus c url g dbs cn).info.bmNotMigrateCount = 0 ∧
    ∀ e ∈ (rebalanceBackendRun maxCpus c url g dbs cn).events,
      e = RebalanceEvent.wait url ∨ e.dstOf = some none := by
  have htgt : ∀ db m, rebalanceTarget c db m = "" :=
    fun db m => rebalanceTarget_of_empty c db m hring
  have hnu : ("" : String) ≠ url := fun hh => hurl hh.symm
  have hne : ∀ db m, (rebalanceTarget c db m != url) = true := by
    intro db m
    simp [htgt, hnu]
  have hneed : (rebalanceBackendRun maxCpus c url g dbs cn).info.bmNeedMigrateCount
      = (dbs.map (fun db => (g db).length)).sum := by
    rw [rebalanceBackendRun, rebalanceDbs_need]
    simp only [clearMigrateStatus, MigrationInfo.zero, hne]
    simp [List.filter_true]
  refine ⟨hneed, ?_, ?_⟩
  · have hsplit := sum_filter_length_split c url g dbs
    have hn : (rebalanceBackendRun maxCpus c url g dbs cn).info.bmNotMigrateCount
        = (dbs.map (fun db =>
            ((g db).filter
              (fun m => !(rebalanceTarget c db m != url))).length)).sum := by
      rw [rebalanceBackendRun, rebalanceDbs_not]
      simp [clearMigrateStatus, MigrationInfo.zero]
    have hw : (dbs.map (fun db =>
        ((g db).filter (fun m => rebalanceTarget c db m != url)).length)).sum
        = (dbs.map (fun db => (g db).length)).sum := by
      simp only [hne]
      simp [List.filter_true]
    omega
  · have hev : (rebalanceBackendRun maxCpus c url g dbs cn).events
        = interleaveWaits maxCpus url 0
            (dbs.flatMap (fun db => rebalanceMigrations c url db (g db))) := by
      rw [rebalanceBackendRun, rebalanceDbs_events]
      simp
    intro e he
    rw [hev] at he
    rcases interleaveWaits_mem maxCpus url 0 _ e he with hmem | rfl
    · rw [List.mem_flatMap] at hmem
      obtain ⟨db, -, hdb⟩ := hmem
      simp only [rebalanceMigrations, List.mem_map] at hdb
      obtain ⟨m, -, rfl⟩ := hdb
      refine Or.inr ?_
      rw [RebalanceEvent.dstOf, htgt, hmap]
    · exact Or.inl rfl

/-- Witness for C10 at a concrete circle with an empty ring: the single
measurement is counted as needing migration and its scheduled migration
carries a nil destination. -/
theorem rebalanceBackend_emptyRing_witness :
    (0 < 1 ∧ circleEmptyRing.router.members = [] ∧ ("u1" : String) ≠ "" ∧
        lookupBackend circleEmptyRing.urlToBackend ("") = none) ∧
      ((rebalanceBackendRun 1 circleEmptyRing ("u1") (fun _ => ["m1"]) ["d"]
            0).info.bmNeedMigrateCount
          = ((["d"] : List String).map
              (fun db => ((["m1"] : List String)).length)).sum ∧
        (rebalanceBackendRun 1 circleEmptyRing ("u1") (fun _ => ["m1"]) ["d"]
            0).info.bmNotMigrateCount = 0 ∧
        ∀ e ∈ (rebalanceBackendRun 1 circleEmptyRing ("u1") (fun _ => ["m1"])
            ["d"] 0).events,
          e = RebalanceEvent.wait ("u1") ∨ e.dstOf = some none) :=
  ⟨⟨by decide, rfl, by decide, rfl⟩,
    rebalanceBackend_emptyRing 1 circleEmptyRing ("u1") (fun _ => ["m1"]) ["d"]
      0 (by decide) rfl (by decide) rfl⟩

end InfluxProxy
